import Mathlib

/-!
# semver-release-action: the `release` command

A shallow embedding of `internal/pkg/release/release.go`.

The Go program talks to the outside world in three ways: it reads the event
file (`os.Open`, `ioutil.ReadAll`), it decodes the file with the go-github
library (`github.ParseWebHook`) and it issues calls to the hosting platform
(`client.Git.CreateRef`, `client.Repositories.CreateRelease`).  These are the
fields of `World`; every result below holds for every world unless a theorem
fixes one.  A run is a `Result`: the effects it performed, in order, and either
a normal return or the way the process was stopped.

Go strings are modelled as Lean strings, Go pointers (`*string`, `*bool`,
`*PullRequest`) as `Option`, a Go `error` as `Option String` (the text of
`err.Error()`, `none` for `nil`).  The separator `/` is one byte of UTF-8 that
occurs in no longer sequence, so splitting text on the character is splitting
it on the byte.

An index out of range and a nil dereference are Go runtime errors: they stop
the process with a non-zero status, like the termination helper of package
`action`, whose source is not among the files embedded here and which is
modelled from the specification.
-/

namespace Release

/-! ## Data model -/

/-- The Go runtime errors the program can raise. -/
inductive Panic where
  /-- The runtime error `index out of range [i] with length n`. -/
  | indexOutOfRange (i n : Nat)
  /-- The runtime error `invalid memory address or nil pointer dereference`. -/
  | nilDereference
  deriving DecidableEq

/-- How a run stops when it does not return: both end the process with a non-zero status. -/
inductive Halt where
  /-- The message `msg` was reported and the process ended, as the termination helper of
  package `action` does. -/
  | failure (msg : String)
  /-- An uncaught Go runtime error. -/
  | panic (p : Panic)
  deriving DecidableEq

/-- The type `github.PullRequest`, reduced to the field the program reads. -/
structure PullRequest where
  Body : Option String
  deriving DecidableEq

/-- The type `github.PullRequestEvent`, reduced to the field the program reads. -/
structure PullRequestEvent where
  PullRequest : Option PullRequest
  deriving DecidableEq

/-- The `interface{}` value returned by `github.ParseWebHook`, by dynamic type. -/
inductive Parsed where
  /-- The nil interface value. -/
  | nil
  /-- A `*github.PullRequestEvent` (the pointer itself may be nil). -/
  | pullRequestEvent (e : Option PullRequestEvent)
  /-- A value of any other dynamic type. -/
  | other
  deriving DecidableEq

/-- The type `github.GitObject`, reduced to the field the program sets. -/
structure GitObject where
  SHA : Option String
  deriving DecidableEq

/-- The type `github.Reference`, reduced to the fields the program sets. -/
structure Reference where
  Ref : Option String
  Object : Option GitObject
  deriving DecidableEq

/-- The type `github.RepositoryRelease`, reduced to the fields the program sets. -/
structure RepositoryRelease where
  Name : Option String
  TagName : Option String
  TargetCommitish : Option String
  Body : Option String
  Draft : Option Bool
  Prerelease : Option Bool
  deriving DecidableEq

/-- The API client: `github.NewClient` over an oauth2 client with a static token. -/
structure Client where
  AccessToken : String
  deriving DecidableEq

/-- An outbound call to the hosting platform. -/
inductive Call where
  /-- The call `client.Git.CreateRef(ctx, owner, repo, ref)`. -/
  | createRef (client : Client) (owner repo : String) (ref : Reference)
  /-- The call `client.Repositories.CreateRelease(ctx, owner, repo, release)`. -/
  | createRelease (client : Client) (owner repo : String) (release : RepositoryRelease)
  deriving DecidableEq

/-- What a run does to the outside world. -/
inductive Effect where
  /-- The call `os.Open(path)`. -/
  | fileOpen (path : String)
  /-- The call `ioutil.ReadAll(file)` on the file opened at `path`. -/
  | fileRead (path : String)
  /-- The deferred `file.Close()`. -/
  | fileClose (path : String)
  /-- A `log.Print` of a string. -/
  | logString (s : String)
  /-- A `log.Print` of a `*string`, which may be nil. -/
  | logPointer (p : Option String)
  /-- An outbound call. -/
  | call (c : Call)
  deriving DecidableEq

/-- The outside world of one run. -/
structure World where
  /-- The result of `os.Open`: the error, if any. -/
  Open : String → Option String
  /-- The result of `ioutil.ReadAll`: the bytes read and the error, if any. -/
  ReadAll : String → String × Option String
  /-- The result of `github.ParseWebHook(messageType, payload)`: the value and the error. -/
  ParseWebHook : String → String → Parsed × Option String
  /-- The result of `client.Git.CreateRef`: the error, if any. -/
  CreateRef : Client → String → String → Reference → Option String
  /-- The result of `client.Repositories.CreateRelease`: the error, if any. -/
  CreateRelease : Client → String → String → RepositoryRelease → Option String

/-- A run of a Go function: its effects so far, and its value or the way it stopped the process. -/
inductive Result (α : Type) where
  | ret (effects : List Effect) (val : α)
  | halt (effects : List Effect) (h : Halt)

/-- Sequencing: the effects of the first part come first; a halt ends the run. -/
def Result.bind {α β : Type} (r : Result α) (f : α → Result β) : Result β :=
  match r with
  | .ret t a =>
    match f a with
    | .ret t2 b => .ret (t ++ t2) b
    | .halt t2 h => .halt (t ++ t2) h
  | .halt t h => .halt t h

/-- Perform one effect. -/
def Result.emit (e : Effect) : Result Unit := .ret [e] ()

/-- The effects of a run, in order. -/
def Result.effects {α : Type} : Result α → List Effect
  | .ret t _ => t
  | .halt t _ => t

/-- The outbound calls of a run, in order. -/
def Result.calls {α : Type} (r : Result α) : List Call :=
  r.effects.filterMap fun e => match e with
    | .call c => some c
    | _ => none

/-- The run returned: the process goes on and, for `execute`, exits with status 0. -/
def Result.succeeded {α : Type} : Result α → Bool
  | .ret _ _ => true
  | .halt _ _ => false

/-- The run ended the process with a non-zero status. -/
def Result.failed {α : Type} : Result α → Bool
  | .ret _ _ => false
  | .halt _ _ => true

/-- The way the process was stopped, if it was. -/
def Result.halted {α : Type} : Result α → Option Halt
  | .ret _ _ => none
  | .halt _ h => some h

/-- The owner a call is addressed to. -/
def Call.owner : Call → String
  | .createRef _ o _ _ => o
  | .createRelease _ o _ _ => o

/-- The repository name a call is addressed to. -/
def Call.repo : Call → String
  | .createRef _ _ r _ => r
  | .createRelease _ _ r _ => r

/-! ## Go built-ins and libraries -/

/-- The Go index expression `xs[i]`, which panics out of range. -/
def index {α : Type} (xs : List α) (i : Nat) : Result α :=
  match xs[i]? with
  | some x => .ret [] x
  | none => .halt [] (.panic (.indexOutOfRange i xs.length))

/-- The Go dereference `*p`, which panics on nil. -/
def deref {α : Type} (p : Option α) : Result α :=
  match p with
  | some x => .ret [] x
  | none => .halt [] (.panic .nilDereference)

/-- The segments of a character list between the occurrences of `sep`. -/
def splitChars (sep : Char) : List Char → List (List Char)
  | [] => [[]]
  | c :: cs =>
    if c = sep then [] :: splitChars sep cs
    else
      match splitChars sep cs with
      | [] => [[c]]
      | seg :: segs => (c :: seg) :: segs

/-- The Go library function `strings.Split(s, sep)` for a separator of one character. -/
def strings.Split (s : String) (sep : Char) : List String :=
  (splitChars sep s.data).map String.mk

/-- The Go call `fmt.Sprintf(lead + "%s", a)` for an `error` or string operand `a`. -/
def fmt.Sprintf (lead : String) (a : Option String) : String :=
  match a with
  | some s => lead ++ s
  | none => lead ++ "%!s(<nil>)"

/-- The client built from `oauth2.StaticTokenSource` and `github.NewClient`. -/
def github.NewClient (token : String) : Client := ⟨token⟩

/-- Modelled from the spec: `action.Fail` of package `internal/pkg/action`, whose source is
missing.  The spec calls it the termination helper: it reports the formatted message and ends
the process with a non-zero status. -/
def action.Fail {α : Type} (msg : String) : Result α := .halt [] (.failure msg)

/-- Modelled from the spec: `action.AssertNoError` of package `internal/pkg/action`, whose
source is missing.  Every error is terminal for the process: with a non-nil error it fails
with the formatted message, with a nil error it returns. -/
def action.AssertNoError (err : Option String) (msg : String) : Result Unit :=
  match err with
  | none => .ret [] ()
  | some _ => action.Fail msg

/-! ## The program -/

def releaseTypeNone : String := "none"
def releaseTypeRelease : String := "release"
def releaseTypeTag : String := "tag"

structure repository where
  owner : String
  name : String
  token : String
  deriving DecidableEq

structure releaseDetails where
  version : String
  target : String
  deriving DecidableEq

/-- The function `readEvent`. -/
def readEvent (w : World) (filePath : String) : Result String :=
  (Result.emit (.fileOpen filePath)).bind fun _ =>
  let err := w.Open filePath
  (action.AssertNoError err (fmt.Sprintf "could not open GitHub event file: " err)).bind fun _ =>
  (Result.emit (.fileRead filePath)).bind fun _ =>
  let (b, err2) := w.ReadAll filePath
  (action.AssertNoError err2 (fmt.Sprintf "could not read GitHub event file: " err2)).bind fun _ =>
  (Result.emit (.fileClose filePath)).bind fun _ =>
  .ret [] b

/-- The function `parseEvent`. -/
def parseEvent (w : World) (filePath : String) : Result (Option PullRequestEvent) :=
  (readEvent w filePath).bind fun payload =>
  let (parsed, err) := w.ParseWebHook "pull_request" payload
  (action.AssertNoError err (fmt.Sprintf "could not parse GitHub event: " err)).bind fun _ =>
  match parsed with
  | .pullRequestEvent event => .ret [] event
  | _ => action.Fail (fmt.Sprintf "could not parse GitHub event into a PullRequestEvent: " err)

/-- The function `createLightweightTag`. -/
def createLightweightTag (w : World) (client : Client) (repo : repository)
    (release : releaseDetails) : Result (Option String) :=
  let ref : Reference :=
    { Ref := some (fmt.Sprintf "refs/tags/" (some release.version)),
      Object := some { SHA := some release.target } }
  (Result.emit (.call (.createRef client repo.owner repo.name ref))).bind fun _ =>
  .ret [] (w.CreateRef client repo.owner repo.name ref)

/-- The function `createGithubRelease`. -/
def createGithubRelease (w : World) (client : Client) (repo : repository)
    (release : releaseDetails) (pullRequest : PullRequestEvent) : Result (Option String) :=
  (Result.emit (.logString "Pull request body:")).bind fun _ =>
  (deref pullRequest.PullRequest).bind fun pr =>
  (Result.emit (.logPointer pr.Body)).bind fun _ =>
  (deref pullRequest.PullRequest).bind fun pr2 =>
  let rel : RepositoryRelease :=
    { Name := some release.version,
      TagName := some release.version,
      TargetCommitish := some release.target,
      Body := pr2.Body,
      Draft := some false,
      Prerelease := some false }
  (Result.emit (.call (.createRelease client repo.owner repo.name rel))).bind fun _ =>
  .ret [] (w.CreateRelease client repo.owner repo.name rel)

/-- The function `execute`. -/
def execute (w : World) (releaseType : String) (args : List String) : Result Unit :=
  (index args 0).bind fun args0 =>
  let parts := strings.Split args0 '/'
  (index parts 0).bind fun owner =>
  (index parts 1).bind fun name =>
  (index args 3).bind fun token =>
  let repo : repository := { owner := owner, name := name, token := token }
  (index args 2).bind fun version =>
  (index args 1).bind fun target =>
  let release : releaseDetails := { version := version, target := target }
  (index args 4).bind fun filePath =>
  (parseEvent w filePath).bind fun pullRequestEvent =>
  let client := github.NewClient repo.token
  if releaseType = releaseTypeNone then
    .ret [] ()
  else if releaseType = releaseTypeRelease then
    (deref pullRequestEvent).bind fun event =>
    (createGithubRelease w client repo release event).bind fun err =>
    match err with
    | some e => action.AssertNoError (some e) (fmt.Sprintf "could not create GitHub release: " (some e))
    | none => .ret [] ()
  else if releaseType = releaseTypeTag then
    (createLightweightTag w client repo release).bind fun err =>
    match err with
    | some e => action.AssertNoError (some e) (fmt.Sprintf "could not create lightweight tag: " (some e))
    | none => .ret [] ()
  else
    action.Fail (fmt.Sprintf "unknown release strategy: " (some releaseType))

/-- The value of the `strategy` flag: `StringVarP` with the default `releaseTypeRelease`. -/
def strategyFlag (supplied : Option String) : String :=
  match supplied with
  | some s => s
  | none => releaseTypeRelease

/-- The function `Command`: the command built by it, run on the flag as supplied (or not) and
the positional arguments.  The validator `cobra.ExactArgs(5)` of the cobra library rejects any
other number of arguments with its own message, and `Run` is not called. -/
def Command (w : World) (supplied : Option String) (args : List String) : Result Unit :=
  if args.length = 5 then
    execute w (strategyFlag supplied) args
  else
    .halt [] (.failure ("accepts 5 arg(s), received " ++ toString args.length))

/-! ## Worlds used in the examples -/

/-- A world whose event file holds a pull-request event with body `Fixes #4`, and whose
hosting platform accepts every call. -/
def acmeWorld : World where
  Open := fun _ => none
  ReadAll := fun _ => ("(a pull_request event with body Fixes #4)", none)
  ParseWebHook := fun _ _ => (.pullRequestEvent (some { PullRequest := some { Body := some "Fixes #4" } }), none)
  CreateRef := fun _ _ _ _ => none
  CreateRelease := fun _ _ _ _ => none

/-- The error the hosting platform of `w` answers a call with, if any. -/
def World.respond (w : World) : Call → Option String
  | .createRef client owner repo ref => w.CreateRef client owner repo ref
  | .createRelease client owner repo release => w.CreateRelease client owner repo release

/-- A world like `acmeWorld` whose hosting platform rejects every call. -/
def rejectingWorld : World where
  Open := fun _ => none
  ReadAll := fun _ => ("(a pull_request event with body Fixes #4)", none)
  ParseWebHook := fun _ _ => (.pullRequestEvent (some { PullRequest := some { Body := some "Fixes #4" } }), none)
  CreateRef := fun _ _ _ _ => some "422 Reference already exists"
  CreateRelease := fun _ _ _ _ => some "422 Validation Failed"

/-- A world without the event file. -/
def missingFileWorld : World where
  Open := fun path => some ("open " ++ path ++ ": no such file or directory")
  ReadAll := fun _ => ("", none)
  ParseWebHook := fun _ _ => (.pullRequestEvent (some { PullRequest := none }), none)
  CreateRef := fun _ _ _ _ => none
  CreateRelease := fun _ _ _ _ => none

/-- A world whose event file holds the JSON document `{}`.  In go-github, `ParseWebHook` for
the message type `pull_request` allocates a `PullRequestEvent` and hands it to
`json.Unmarshal`; the document `{}` is an object, sets no field and gives no error, so the
result is an event whose `PullRequest` pointer is nil.  The document `null` gives the nil
interface value, and a document that is not an object gives an error. -/
def emptyObjectWorld : World where
  Open := fun _ => none
  ReadAll := fun _ => ("\x7b\x7d", none)
  ParseWebHook := fun _ payload =>
    if payload = "\x7b\x7d" then (.pullRequestEvent (some { PullRequest := none }), none)
    else if payload = "null" then (.nil, none)
    else (.pullRequestEvent (some { PullRequest := none }), some "json: cannot unmarshal")
  CreateRef := fun _ _ _ _ => none
  CreateRelease := fun _ _ _ _ => none

/-! ## Lemmas on sequencing and on splitting -/

/-- Sequencing after a return. -/
theorem Result.bind_ret {α β : Type} (t : List Effect) (a : α) (f : α → Result β) :
    (Result.ret t a).bind f =
      match f a with
      | .ret t2 b => .ret (t ++ t2) b
      | .halt t2 h => .halt (t ++ t2) h := rfl

/-- Sequencing after a halt. -/
theorem Result.bind_halt {α β : Type} (t : List Effect) (h : Halt) (f : α → Result β) :
    (Result.halt t h : Result α).bind f = .halt t h := rfl

/-- A list without the separator is its own single segment. -/
theorem splitChars_of_not_mem (sep : Char) (l : List Char) (h : sep ∉ l) :
    splitChars sep l = [l] := by
  induction l with
  | nil => rfl
  | cons c cs ih =>
    have hc : c ≠ sep := fun e => h (by simp [e])
    have hcs : sep ∉ cs := fun m => h (List.mem_cons_of_mem _ m)
    simp [splitChars, hc, ih hcs]

/-- The first segment ends at the first separator. -/
theorem splitChars_append (sep : Char) (a b : List Char) (h : sep ∉ a) :
    splitChars sep (a ++ sep :: b) = a :: splitChars sep b := by
  induction a with
  | nil => simp [splitChars]
  | cons c cs ih =>
    have hc : c ≠ sep := fun e => h (by simp [e])
    have hcs : sep ∉ cs := fun m => h (List.mem_cons_of_mem _ m)
    simp [splitChars, hc, ih hcs]

/-- Splitting `owner/name` gives the owner and the name. -/
theorem split_owner_name (owner name : String)
    (ho : '/' ∉ owner.data) (hn : '/' ∉ name.data) :
    strings.Split (owner ++ "/" ++ name) '/' = [owner, name] := by
  have hd : (owner ++ "/" ++ name).data = owner.data ++ '/' :: name.data := by
    simp [String.data_append]
  simp [strings.Split, hd, splitChars_append _ _ _ ho, splitChars_of_not_mem _ _ hn]

/-- The normal form of `execute` on five arguments: every path of the function, with the
effects it has performed and the way it ends. -/
theorem execute_five (w : World) (s a b c d e : String) :
    execute w s [a, b, c, d, e] =
      match strings.Split a '/' with
      | [] => .halt [] (.panic (.indexOutOfRange 0 0))
      | [_] => .halt [] (.panic (.indexOutOfRange 1 1))
      | owner :: name :: _ =>
        match w.Open e with
        | some err =>
          .halt [.fileOpen e] (.failure ("could not open GitHub event file: " ++ err))
        | none =>
          match w.ReadAll e with
          | (_, some err) =>
            .halt [.fileOpen e, .fileRead e]
              (.failure ("could not read GitHub event file: " ++ err))
          | (payload, none) =>
            match w.ParseWebHook "pull_request" payload with
            | (_, some err) =>
              .halt [.fileOpen e, .fileRead e, .fileClose e]
                (.failure ("could not parse GitHub event: " ++ err))
            | (.pullRequestEvent ev, none) =>
              if s = "none" then .ret [.fileOpen e, .fileRead e, .fileClose e] ()
              else if s = "release" then
                match ev with
                | none => .halt [.fileOpen e, .fileRead e, .fileClose e] (.panic .nilDereference)
                | some event =>
                  match event.PullRequest with
                  | none =>
                    .halt [.fileOpen e, .fileRead e, .fileClose e,
                      .logString "Pull request body:"] (.panic .nilDereference)
                  | some pr =>
                    match w.CreateRelease ⟨d⟩ owner name
                        { Name := some c, TagName := some c, TargetCommitish := some b,
                          Body := pr.Body, Draft := some false, Prerelease := some false } with
                    | none =>
                      .ret [.fileOpen e, .fileRead e, .fileClose e,
                        .logString "Pull request body:", .logPointer pr.Body,
                        .call (.createRelease ⟨d⟩ owner name
                          { Name := some c, TagName := some c, TargetCommitish := some b,
                            Body := pr.Body, Draft := some false, Prerelease := some false })] ()
                    | some err =>
                      .halt [.fileOpen e, .fileRead e, .fileClose e,
                        .logString "Pull request body:", .logPointer pr.Body,
                        .call (.createRelease ⟨d⟩ owner name
                          { Name := some c, TagName := some c, TargetCommitish := some b,
                            Body := pr.Body, Draft := some false, Prerelease := some false })]
                        (.failure ("could not create GitHub release: " ++ err))
              else if s = "tag" then
                match w.CreateRef ⟨d⟩ owner name
                    { Ref := some ("refs/tags/" ++ c), Object := some { SHA := some b } } with
                | none =>
                  .ret [.fileOpen e, .fileRead e, .fileClose e,
                    .call (.createRef ⟨d⟩ owner name
                      { Ref := some ("refs/tags/" ++ c), Object := some { SHA := some b } })] ()
                | some err =>
                  .halt [.fileOpen e, .fileRead e, .fileClose e,
                    .call (.createRef ⟨d⟩ owner name
                      { Ref := some ("refs/tags/" ++ c), Object := some { SHA := some b } })]
                    (.failure ("could not create lightweight tag: " ++ err))
              else
                .halt [.fileOpen e, .fileRead e, .fileClose e]
                  (.failure ("unknown release strategy: " ++ s))
            | (_, none) =>
              .halt [.fileOpen e, .fileRead e, .fileClose e]
                (.failure "could not parse GitHub event into a PullRequestEvent: %!s(<nil>)") := by
  rcases hsp : strings.Split a '/' with _ | ⟨owner, _ | ⟨name, more⟩⟩
  · simp [Result.bind_ret, Result.bind_halt, execute, index, hsp]
  · simp [Result.bind_ret, Result.bind_halt, execute, index, hsp]
  cases hO : w.Open e with
  | some err =>
    simp [Result.bind_ret, Result.bind_halt, execute, index, hsp, parseEvent, readEvent, hO, action.AssertNoError, action.Fail,
      Result.emit, fmt.Sprintf]
  | none =>
    rcases hR : w.ReadAll e with ⟨payload, _ | err⟩
    swap
    · simp [Result.bind_ret, Result.bind_halt, execute, index, hsp, parseEvent, readEvent, hO, hR, action.AssertNoError,
        action.Fail, Result.emit, fmt.Sprintf]
    rcases hP : w.ParseWebHook "pull_request" payload with ⟨parsed, _ | err⟩
    swap
    · simp [Result.bind_ret, Result.bind_halt, execute, index, hsp, parseEvent, readEvent, hO, hR, hP, action.AssertNoError,
        action.Fail, Result.emit, fmt.Sprintf]
    cases parsed with
    | nil =>
      simp [Result.bind_ret, Result.bind_halt, execute, index, hsp, parseEvent, readEvent, hO, hR, hP, action.AssertNoError,
        action.Fail, Result.emit, fmt.Sprintf]
    | other =>
      simp [Result.bind_ret, Result.bind_halt, execute, index, hsp, parseEvent, readEvent, hO, hR, hP, action.AssertNoError,
        action.Fail, Result.emit, fmt.Sprintf]
    | pullRequestEvent ev =>
      by_cases h1 : s = "none"
      · simp [Result.bind_ret, Result.bind_halt, execute, index, hsp, parseEvent, readEvent, hO, hR, hP, action.AssertNoError,
          action.Fail, Result.emit, fmt.Sprintf, h1, releaseTypeNone]
      by_cases h2 : s = "release"
      · rcases ev with _ | event
        · simp [Result.bind_ret, Result.bind_halt, execute, index, hsp, parseEvent, readEvent, hO, hR, hP, action.AssertNoError,
            action.Fail, Result.emit, fmt.Sprintf, h2, releaseTypeNone, releaseTypeRelease,
            deref]
        rcases hpr : event.PullRequest with _ | pr
        · simp [Result.bind_ret, Result.bind_halt, execute, index, hsp, parseEvent, readEvent, hO, hR, hP, action.AssertNoError,
            action.Fail, Result.emit, fmt.Sprintf, h2, releaseTypeNone, releaseTypeRelease,
            deref, createGithubRelease, hpr]
        cases hC : w.CreateRelease ⟨d⟩ owner name
                        { Name := some c, TagName := some c, TargetCommitish := some b,
                          Body := pr.Body, Draft := some false, Prerelease := some false } <;>
          simp [Result.bind_ret, Result.bind_halt, execute, index, hsp, parseEvent, readEvent, hO, hR, hP, action.AssertNoError,
            action.Fail, Result.emit, fmt.Sprintf, h2, releaseTypeNone, releaseTypeRelease,
            deref, createGithubRelease, hpr, github.NewClient, hC]
      by_cases h3 : s = "tag"
      · cases hC : w.CreateRef ⟨d⟩ owner name
            { Ref := some ("refs/tags/" ++ c), Object := some { SHA := some b } } <;>
          simp [Result.bind_ret, Result.bind_halt, execute, index, hsp, parseEvent, readEvent, hO, hR, hP, action.AssertNoError,
            action.Fail, Result.emit, fmt.Sprintf, h3, releaseTypeNone, releaseTypeRelease,
            releaseTypeTag, createLightweightTag, github.NewClient, hC]
      simp [Result.bind_ret, Result.bind_halt, execute, index, hsp, parseEvent, readEvent, hO, hR, hP, action.AssertNoError,
        action.Fail, Result.emit, fmt.Sprintf, h1, h2, h3, releaseTypeNone, releaseTypeRelease,
        releaseTypeTag]

/-- A split has at least one segment. -/
theorem splitChars_ne_nil (sep : Char) (l : List Char) : splitChars sep l ≠ [] := by
  cases l with
  | nil => simp [splitChars]
  | cons c cs =>
    by_cases hc : c = sep
    · simp [splitChars, hc]
    · cases h : splitChars sep cs <;> simp [splitChars, hc, h]

/-- A split has one segment more than there are separators. -/
theorem splitChars_length (sep : Char) (l : List Char) :
    (splitChars sep l).length = l.count sep + 1 := by
  induction l with
  | nil => simp [splitChars]
  | cons c cs ih =>
    by_cases hc : c = sep
    · simp [splitChars, hc, ih]
    · have hne := splitChars_ne_nil sep cs
      cases h : splitChars sep cs with
      | nil => exact absurd h hne
      | cons seg segs =>
        rw [h] at ih
        simp [splitChars, hc, h, List.count_cons] at ih ⊢
        omega

/-- No segment of a split contains the separator. -/
theorem splitChars_segments (sep : Char) (l : List Char) :
    ∀ seg ∈ splitChars sep l, sep ∉ seg := by
  induction l with
  | nil => simp [splitChars]
  | cons c cs ih =>
    by_cases hc : c = sep
    · intro seg hseg
      simp [splitChars, hc] at hseg
      rcases hseg with rfl | hseg
      · simp
      · exact ih seg (by simpa [hc] using hseg)
    · cases h : splitChars sep cs with
      | nil => exact absurd h (splitChars_ne_nil sep cs)
      | cons seg0 segs =>
        rw [h] at ih
        intro seg hseg
        simp [splitChars, hc, h] at hseg
        rcases hseg with rfl | hseg
        · have h0 := ih seg0 (by simp)
          simp [h0, Ne.symm hc]
        · exact ih seg (by simp [hseg])

/-- Without a separator `strings.Split` returns the string alone. -/
theorem split_no_sep (s : String) (sep : Char) (h : sep ∉ s.data) :
    strings.Split s sep = [s] := by
  simp [strings.Split, splitChars_of_not_mem sep s.data h]

/-- With a separator `strings.Split` returns at least two segments. -/
theorem split_two (s : String) (sep : Char) (h : sep ∈ s.data) :
    ∃ p0 p1 more, strings.Split s sep = p0 :: p1 :: more ∧ sep ∉ p0.data ∧ sep ∉ p1.data ∧
      more.length + 1 = s.data.count sep := by
  have hlen := splitChars_length sep s.data
  have hpos : 0 < s.data.count sep := List.count_pos_iff.mpr h
  have hseg := splitChars_segments sep s.data
  rcases hs : splitChars sep s.data with _ | ⟨a, _ | ⟨b, rest⟩⟩
  · rw [hs] at hlen; simp at hlen
  · rw [hs] at hlen; simp at hlen; omega
  · rw [hs] at hlen hseg
    refine ⟨⟨a⟩, ⟨b⟩, rest.map String.mk, ?_, ?_, ?_, ?_⟩
    · simp [strings.Split, hs]
    · exact hseg a (by simp)
    · exact hseg b (by simp)
    · simp at hlen ⊢; omega

/-- Every outbound call of a run is addressed to the first two segments of the repository
argument. -/
theorem calls_addressed (w : World) (s a b c d e p0 p1 : String) (more : List String)
    (hsp : strings.Split a '/' = p0 :: p1 :: more) :
    ∀ x ∈ (execute w s [a, b, c, d, e]).calls, x.owner = p0 ∧ x.repo = p1 := by
  rw [execute_five]
  simp only [hsp]
  repeat' split
  all_goals simp_all [Result.calls, Result.effects, Call.owner, Call.repo]

/-- A run issues at most one outbound call. -/
theorem calls_length_le_one (w : World) (s a b c d e : String) :
    (execute w s [a, b, c, d, e]).calls.length ≤ 1 := by
  rw [execute_five]
  repeat' split
  all_goals simp_all [Result.calls, Result.effects]

/-! ## The claims -/

/-- C1: with a valid `owner/name` repository and an event file that decodes to a pull-request
event, strategy `release` issues exactly one create-release call and no create-reference call;
the call is addressed to `(owner, name)` and carries `Name = TagName = version`,
`TargetCommitish = target`, the body of the pull request as it is, `Draft = false` and
`Prerelease = false`. -/
theorem C1_release_one_create_release (w : World)
    (owner name target version token eventPath payload : String)
    (event : PullRequestEvent) (pr : PullRequest)
    (ho : '/' ∉ owner.data) (hn : '/' ∉ name.data)
    (hopen : w.Open eventPath = none)
    (hread : w.ReadAll eventPath = (payload, none))
    (hparse : w.ParseWebHook "pull_request" payload = (.pullRequestEvent (some event), none))
    (hpr : event.PullRequest = some pr) :
    (execute w "release" [owner ++ "/" ++ name, target, version, token, eventPath]).calls =
      [Call.createRelease ⟨token⟩ owner name
        { Name := some version, TagName := some version, TargetCommitish := some target,
          Body := pr.Body, Draft := some false, Prerelease := some false }] := by
  rw [execute_five]
  simp only [split_owner_name owner name ho hn, hopen, hread, hparse, hpr]
  cases w.CreateRelease ⟨token⟩ owner name
        { Name := some version, TagName := some version, TargetCommitish := some target,
          Body := pr.Body, Draft := some false, Prerelease := some false } <;>
    simp [Result.calls, Result.effects]

/-- C1 at the example of the specification: `acme/widgets`, target `abc123`, version `v2.0.0`,
an event with body `Fixes #4`. -/
theorem C1_release_one_create_release_witness :
    (execute acmeWorld "release"
        ["acme/widgets", "abc123", "v2.0.0", "tok_xyz", "/github/workflow/event.json"]).calls =
      [Call.createRelease ⟨"tok_xyz"⟩ "acme" "widgets"
        { Name := some "v2.0.0", TagName := some "v2.0.0", TargetCommitish := some "abc123",
          Body := some "Fixes #4", Draft := some false, Prerelease := some false }] :=
  C1_release_one_create_release acmeWorld "acme" "widgets" "abc123" "v2.0.0" "tok_xyz"
    "/github/workflow/event.json" "(a pull_request event with body Fixes #4)"
    { PullRequest := some { Body := some "Fixes #4" } } { Body := some "Fixes #4" }
    (by decide) (by decide) rfl rfl rfl rfl

/-- C2: with a valid `owner/name` repository and an event file that decodes to a pull-request
event, strategy `tag` issues exactly one create-reference call and no create-release call; the
call is addressed to `(owner, name)`, its ref is `refs/tags/` followed by the version and its
object SHA is the target. -/
theorem C2_tag_one_create_reference (w : World)
    (owner name target version token eventPath payload : String)
    (event : Option PullRequestEvent)
    (ho : '/' ∉ owner.data) (hn : '/' ∉ name.data)
    (hopen : w.Open eventPath = none)
    (hread : w.ReadAll eventPath = (payload, none))
    (hparse : w.ParseWebHook "pull_request" payload = (.pullRequestEvent event, none)) :
    (execute w "tag" [owner ++ "/" ++ name, target, version, token, eventPath]).calls =
      [Call.createRef ⟨token⟩ owner name
        { Ref := some ("refs/tags/" ++ version), Object := some { SHA := some target } }] := by
  rw [execute_five]
  simp only [split_owner_name owner name ho hn, hopen, hread, hparse]
  cases w.CreateRef ⟨token⟩ owner name
        { Ref := some ("refs/tags/" ++ version), Object := some { SHA := some target } } <;>
    simp [Result.calls, Result.effects]

/-- C2 at the example of the specification: one create-reference call with ref
`refs/tags/v2.0.0` and SHA `abc123`. -/
theorem C2_tag_one_create_reference_witness :
    (execute acmeWorld "tag"
        ["acme/widgets", "abc123", "v2.0.0", "tok_xyz", "/github/workflow/event.json"]).calls =
      [Call.createRef ⟨"tok_xyz"⟩ "acme" "widgets"
        { Ref := some "refs/tags/v2.0.0", Object := some { SHA := some "abc123" } }] :=
  C2_tag_one_create_reference acmeWorld "acme" "widgets" "abc123" "v2.0.0" "tok_xyz"
    "/github/workflow/event.json" "(a pull_request event with body Fixes #4)"
    (some { PullRequest := some { Body := some "Fixes #4" } })
    (by decide) (by decide) rfl rfl rfl

/-- C3, as stated, fails: with the repository argument `foo` the run under strategy `none`
does not exit successfully although the event file is present and parses; it stops on the
index `parts[1]`. -/
theorem C3_none_counterexample :
    acmeWorld.Open "/github/workflow/event.json" = none ∧
    acmeWorld.ReadAll "/github/workflow/event.json" =
      ("(a pull_request event with body Fixes #4)", none) ∧
    acmeWorld.ParseWebHook "pull_request" "(a pull_request event with body Fixes #4)" =
      (.pullRequestEvent (some { PullRequest := some { Body := some "Fixes #4" } }), none) ∧
    (execute acmeWorld "none"
      ["foo", "abc123", "v2.0.0", "tok_xyz", "/github/workflow/event.json"]).succeeded = false ∧
    (execute acmeWorld "none"
      ["foo", "abc123", "v2.0.0", "tok_xyz", "/github/workflow/event.json"]).halted =
        some (.panic (.indexOutOfRange 1 1)) := by
  refine ⟨rfl, rfl, rfl, ?_, ?_⟩ <;> rfl

/-- C3, amended: when the repository argument contains at least one `/` and the event file is
present and parses, strategy `none` issues no outbound call and the run exits successfully,
whatever the target, the version and the token are. -/
theorem C3_none_no_call (w : World)
    (repository target version token eventPath payload : String)
    (event : Option PullRequestEvent)
    (hrepo : '/' ∈ repository.data)
    (hopen : w.Open eventPath = none)
    (hread : w.ReadAll eventPath = (payload, none))
    (hparse : w.ParseWebHook "pull_request" payload = (.pullRequestEvent event, none)) :
    (execute w "none" [repository, target, version, token, eventPath]).succeeded = true ∧
    (execute w "none" [repository, target, version, token, eventPath]).calls = [] := by
  obtain ⟨p0, p1, more, hsp, -, -, -⟩ := split_two repository '/' hrepo
  rw [execute_five]
  simp [hsp, hopen, hread, hparse, Result.succeeded, Result.calls, Result.effects]

/-- C3, amended, at an example: the repository `a/b/c` and empty target, version and token. -/
theorem C3_none_no_call_witness :
    (execute acmeWorld "none" ["a/b/c", "", "", "", "/github/workflow/event.json"]).succeeded
      = true ∧
    (execute acmeWorld "none" ["a/b/c", "", "", "", "/github/workflow/event.json"]).calls = [] :=
  C3_none_no_call acmeWorld "a/b/c" "" "" "" "/github/workflow/event.json"
    "(a pull_request event with body Fixes #4)"
    (some { PullRequest := some { Body := some "Fixes #4" } }) (by decide) rfl rfl rfl

/-- C4: for every strategy other than `release`, `tag` and `none` and every argument list, the
run ends with a non-zero status and issues no outbound call; when it reaches the strategy
switch (the repository has a `/`, the event file is read and decoded), the failure message is
`unknown release strategy: ` followed by the strategy. -/
theorem C4_unknown_strategy (w : World)
    (s repository target version token eventPath : String)
    (h1 : s ≠ "release") (h2 : s ≠ "tag") (h3 : s ≠ "none") :
    (execute w s [repository, target, version, token, eventPath]).failed = true ∧
    (execute w s [repository, target, version, token, eventPath]).calls = [] ∧
    ∀ (payload : String) (event : Option PullRequestEvent),
      '/' ∈ repository.data →
      w.Open eventPath = none →
      w.ReadAll eventPath = (payload, none) →
      w.ParseWebHook "pull_request" payload = (.pullRequestEvent event, none) →
      (execute w s [repository, target, version, token, eventPath]).halted =
        some (.failure ("unknown release strategy: " ++ s)) := by
  rw [execute_five]
  refine ⟨?_, ?_, ?_⟩
  · repeat' split
    all_goals simp_all [Result.failed]
  · repeat' split
    all_goals simp_all [Result.calls, Result.effects]
  · intro payload event hrepo hopen hread hparse
    obtain ⟨p0, p1, more, hsp, -, -, -⟩ := split_two repository '/' hrepo
    simp [hsp, hopen, hread, hparse, h1, h2, h3, Result.halted]

/-- C4 at an example: the strategy `draft`. -/
theorem C4_unknown_strategy_witness :
    (execute acmeWorld "draft"
      ["acme/widgets", "abc123", "v2.0.0", "tok_xyz", "/github/workflow/event.json"]).failed
        = true ∧
    (execute acmeWorld "draft"
      ["acme/widgets", "abc123", "v2.0.0", "tok_xyz", "/github/workflow/event.json"]).calls
        = [] ∧
    (execute acmeWorld "draft"
      ["acme/widgets", "abc123", "v2.0.0", "tok_xyz", "/github/workflow/event.json"]).halted
        = some (.failure "unknown release strategy: draft") :=
  have h := C4_unknown_strategy acmeWorld "draft" "acme/widgets" "abc123" "v2.0.0" "tok_xyz"
    "/github/workflow/event.json" (by decide) (by decide) (by decide)
  ⟨h.1, h.2.1, h.2.2 "(a pull_request event with body Fixes #4)"
    (some { PullRequest := some { Body := some "Fixes #4" } }) (by decide) rfl rfl rfl⟩

/-- C5: for every strategy, `none` included, and every argument list whose event file cannot
be opened or cannot be read, the run ends with a non-zero status and issues no outbound call;
the strategy plays no part, since the file is read before the strategy switch. -/
theorem C5_unreadable_event_file (w : World)
    (s repository target version token eventPath : String)
    (h : w.Open eventPath ≠ none ∨ (w.ReadAll eventPath).2 ≠ none) :
    (execute w s [repository, target, version, token, eventPath]).failed = true ∧
    (execute w s [repository, target, version, token, eventPath]).calls = [] ∧
    ∀ s2 : String, execute w s2 [repository, target, version, token, eventPath] =
      execute w s [repository, target, version, token, eventPath] := by
  refine ⟨?_, ?_, ?_⟩
  · rw [execute_five]
    repeat' split
    all_goals simp_all [Result.failed]
  · rw [execute_five]
    repeat' split
    all_goals simp_all [Result.calls, Result.effects]
  · intro s2
    rw [execute_five, execute_five]
    repeat' split
    all_goals simp_all

/-- C5 at an example: the event file does not exist, the strategy is `none`. -/
theorem C5_unreadable_event_file_witness :
    (execute missingFileWorld "none"
      ["acme/widgets", "abc123", "v2.0.0", "tok_xyz", "/github/workflow/event.json"]).failed
        = true ∧
    (execute missingFileWorld "none"
      ["acme/widgets", "abc123", "v2.0.0", "tok_xyz", "/github/workflow/event.json"]).calls
        = [] :=
  have h := C5_unreadable_event_file missingFileWorld "none" "acme/widgets" "abc123" "v2.0.0"
    "tok_xyz" "/github/workflow/event.json" (Or.inl (by simp [missingFileWorld]))
  ⟨h.1, h.2.1⟩

/-- C6, as stated, fails: the event file `{}` is valid JSON without a `pull_request` field,
and yet under strategy `none` the run exits successfully and under strategy `tag` it issues the
create-reference call and exits successfully. -/
theorem C6_empty_object_counterexample :
    emptyObjectWorld.ReadAll "/github/workflow/event.json" = ("\x7b\x7d", none) ∧
    emptyObjectWorld.ParseWebHook "pull_request" "\x7b\x7d" =
      (.pullRequestEvent (some { PullRequest := none }), none) ∧
    (execute emptyObjectWorld "none"
      ["acme/widgets", "abc123", "v2.0.0", "tok_xyz", "/github/workflow/event.json"]).failed
        = false ∧
    (execute emptyObjectWorld "tag"
      ["acme/widgets", "abc123", "v2.0.0", "tok_xyz", "/github/workflow/event.json"]).failed
        = false ∧
    (execute emptyObjectWorld "tag"
      ["acme/widgets", "abc123", "v2.0.0", "tok_xyz", "/github/workflow/event.json"]).calls =
      [Call.createRef ⟨"tok_xyz"⟩ "acme" "widgets"
        { Ref := some "refs/tags/v2.0.0", Object := some { SHA := some "abc123" } }] := by
  refine ⟨rfl, rfl, ?_, ?_, ?_⟩ <;> rfl

/-- C6, amended: for every strategy, an event file whose decoding gives an error, or a value
that is not a pull-request event, ends the run with a non-zero status before any outbound call.
An event file that decodes without error to an event with no pull-request object (such as `{}`)
is accepted by the decoding step: the run then ends with a non-zero status before any outbound
call for every strategy other than `none` and `tag`, while with a repository containing `/`
strategy `none` exits successfully and strategy `tag` issues its create-reference call. -/
theorem C6_undecodable_event (w : World)
    (s repository target version token eventPath payload : String)
    (parsed : Parsed) (err : Option String)
    (hopen : w.Open eventPath = none)
    (hread : w.ReadAll eventPath = (payload, none))
    (hparse : w.ParseWebHook "pull_request" payload = (parsed, err)) :
    ((err ≠ none ∨ ∀ ev, parsed ≠ .pullRequestEvent ev) →
      (execute w s [repository, target, version, token, eventPath]).failed = true ∧
      (execute w s [repository, target, version, token, eventPath]).calls = []) ∧
    (∀ event : PullRequestEvent, parsed = .pullRequestEvent (some event) → err = none →
      event.PullRequest = none →
      (s ≠ "none" → s ≠ "tag" →
        (execute w s [repository, target, version, token, eventPath]).failed = true ∧
        (execute w s [repository, target, version, token, eventPath]).calls = []) ∧
      ('/' ∈ repository.data → s = "none" →
        (execute w s [repository, target, version, token, eventPath]).succeeded = true ∧
        (execute w s [repository, target, version, token, eventPath]).calls = []) ∧
      ('/' ∈ repository.data → s = "tag" →
        ∃ owner name, ∃ more : List String,
          strings.Split repository '/' = owner :: name :: more ∧
          (execute w s [repository, target, version, token, eventPath]).calls =
            [Call.createRef ⟨token⟩ owner name
              { Ref := some ("refs/tags/" ++ version),
                Object := some { SHA := some target } }])) := by
  refine ⟨?_, ?_⟩
  · intro h
    rw [execute_five]
    refine ⟨?_, ?_⟩
    · repeat' split
      all_goals simp_all [Result.failed]
    · repeat' split
      all_goals simp_all [Result.calls, Result.effects]
  · intro event hp he hpr
    subst hp he
    refine ⟨?_, ?_, ?_⟩
    · intro h1 h2
      rw [execute_five]
      refine ⟨?_, ?_⟩
      · repeat' split
        all_goals simp_all [Result.failed]
      · repeat' split
        all_goals simp_all [Result.calls, Result.effects]
    · intro hrepo hs
      obtain ⟨p0, p1, more, hsp, -, -, -⟩ := split_two repository '/' hrepo
      rw [execute_five]
      simp [hsp, hopen, hread, hparse, hs, Result.succeeded, Result.calls, Result.effects]
    · intro hrepo hs
      obtain ⟨p0, p1, more, hsp, -, -, -⟩ := split_two repository '/' hrepo
      refine ⟨p0, p1, more, hsp, ?_⟩
      rw [execute_five]
      simp only [hsp, hopen, hread, hparse, hs]
      cases w.CreateRef ⟨token⟩ p0 p1
        { Ref := some ("refs/tags/" ++ version), Object := some { SHA := some target } } <;>
        simp [Result.calls, Result.effects]

/-- C6, amended, at an example: the event file `{}` under strategy `release`. -/
theorem C6_undecodable_event_witness :
    (execute emptyObjectWorld "release"
      ["acme/widgets", "abc123", "v2.0.0", "tok_xyz", "/github/workflow/event.json"]).failed
        = true ∧
    (execute emptyObjectWorld "release"
      ["acme/widgets", "abc123", "v2.0.0", "tok_xyz", "/github/workflow/event.json"]).calls
        = [] :=
  ((C6_undecodable_event emptyObjectWorld "release" "acme/widgets" "abc123" "v2.0.0" "tok_xyz"
    "/github/workflow/event.json" "\x7b\x7d" (.pullRequestEvent (some { PullRequest := none })) none
    rfl rfl rfl).2 { PullRequest := none } rfl rfl rfl).1 (by decide) (by decide)

/-- C7: every run issues at most one outbound call, and when that call returns an error the
run ends with a non-zero status and the message is a fixed lead followed by the remote error
as it is: `could not create GitHub release: ` under strategy `release`,
`could not create lightweight tag: ` under strategy `tag`. -/
theorem C7_remote_error (w : World)
    (s repository target version token eventPath : String) :
    (execute w s [repository, target, version, token, eventPath]).calls.length ≤ 1 ∧
    ∀ (c : Call) (e : String),
      (execute w s [repository, target, version, token, eventPath]).calls = [c] →
      w.respond c = some e →
      (execute w s [repository, target, version, token, eventPath]).failed = true ∧
      (s = "release" ∨ s = "tag") ∧
      (s = "release" →
        (execute w s [repository, target, version, token, eventPath]).halted =
          some (.failure ("could not create GitHub release: " ++ e))) ∧
      (s = "tag" →
        (execute w s [repository, target, version, token, eventPath]).halted =
          some (.failure ("could not create lightweight tag: " ++ e))) := by
  refine ⟨calls_length_le_one w s repository target version token eventPath, ?_⟩
  intro c e
  rw [execute_five]
  repeat' split
  all_goals simp_all [Result.calls, Result.effects, Result.failed, Result.halted, World.respond]
  all_goals
    rintro rfl
    simp_all

/-- C7 at an example: the hosting platform rejects the call, under `release` and under
`tag`. -/
theorem C7_remote_error_witness :
    (execute rejectingWorld "release"
      ["acme/widgets", "abc123", "v2.0.0", "tok_xyz", "/github/workflow/event.json"]).halted =
      some (.failure "could not create GitHub release: 422 Validation Failed") ∧
    (execute rejectingWorld "tag"
      ["acme/widgets", "abc123", "v2.0.0", "tok_xyz", "/github/workflow/event.json"]).halted =
      some (.failure "could not create lightweight tag: 422 Reference already exists") :=
  ⟨((C7_remote_error rejectingWorld "release" "acme/widgets" "abc123" "v2.0.0" "tok_xyz"
      "/github/workflow/event.json").2
      (Call.createRelease ⟨"tok_xyz"⟩ "acme" "widgets"
        { Name := some "v2.0.0", TagName := some "v2.0.0", TargetCommitish := some "abc123",
          Body := some "Fixes #4", Draft := some false, Prerelease := some false })
      "422 Validation Failed" rfl rfl).2.2.1 rfl,
   ((C7_remote_error rejectingWorld "tag" "acme/widgets" "abc123" "v2.0.0" "tok_xyz"
      "/github/workflow/event.json").2
      (Call.createRef ⟨"tok_xyz"⟩ "acme" "widgets"
        { Ref := some "refs/tags/v2.0.0", Object := some { SHA := some "abc123" } })
      "422 Reference already exists" rfl rfl).2.2.2 rfl⟩

/-- C8: for a repository argument `owner/name` in which neither part contains `/`, splitting
on `/` yields exactly the owner and the name, and every outbound call of the run, create-release
or create-reference, is addressed to that owner and that name. -/
theorem C8_split_owner_name (w : World)
    (s owner name target version token eventPath : String)
    (ho : '/' ∉ owner.data) (hn : '/' ∉ name.data) :
    strings.Split (owner ++ "/" ++ name) '/' = [owner, name] ∧
    ∀ c ∈ (execute w s [owner ++ "/" ++ name, target, version, token, eventPath]).calls,
      c.owner = owner ∧ c.repo = name :=
  ⟨split_owner_name owner name ho hn,
   calls_addressed w s (owner ++ "/" ++ name) target version token eventPath owner name []
     (split_owner_name owner name ho hn)⟩

/-- C8 at an example: `acme/widgets` under strategy `tag`. -/
theorem C8_split_owner_name_witness :
    strings.Split "acme/widgets" '/' = ["acme", "widgets"] ∧
    ∀ c ∈ (execute acmeWorld "tag"
        ["acme/widgets", "abc123", "v2.0.0", "tok_xyz", "/github/workflow/event.json"]).calls,
      c.owner = "acme" ∧ c.repo = "widgets" :=
  C8_split_owner_name acmeWorld "tag" "acme" "widgets" "abc123" "v2.0.0" "tok_xyz"
    "/github/workflow/event.json" (by decide) (by decide)

/-- C9: without the strategy flag the command runs as with `--strategy release`: the flag
defaults to the constant `release`, and the whole run (effects, outbound calls and exit) is the
same for every argument list. -/
theorem C9_default_strategy (w : World) (args : List String) :
    strategyFlag none = "release" ∧
    Command w none args = Command w (some "release") args ∧
    (Command w none args).calls = (Command w (some "release") args).calls ∧
    (Command w none args).halted = (Command w (some "release") args).halted :=
  ⟨rfl, rfl, rfl, rfl⟩

/-- C10: the index `parts[1]` is in bounds exactly when the repository argument contains a
`/`, and the run of `execute` stops on that index exactly when it does not.  Without a `/` the
split has the single segment and the run stops on the index before any effect (no file read,
no outbound call), for every strategy.  With two or more `/` the index is in bounds and
`execute` gets past it: the run does not stop on an index, its first effect is the opening of
the event file, it is the run of the repository made of the first two segments, and with an
event file that is read and decoded it exits successfully under `none`, issues the
create-reference call to (first segment, second segment) under `tag` and the create-release
call to them under `release`; the other segments are ignored. -/
theorem C10_repository_segments (w : World)
    (s repository target version token eventPath : String) :
    ((index (strings.Split repository '/') 1).succeeded = true ↔ '/' ∈ repository.data) ∧
    ('/' ∉ repository.data →
      strings.Split repository '/' = [repository] ∧
      execute w s [repository, target, version, token, eventPath] =
        .halt [] (.panic (.indexOutOfRange 1 1))) ∧
    (2 ≤ repository.data.count '/' →
      ∃ owner name, ∃ more : List String,
        strings.Split repository '/' = owner :: name :: more ∧ more ≠ [] ∧
        index (strings.Split repository '/') 1 = .ret [] name ∧
        execute w s [repository, target, version, token, eventPath] =
          execute w s [owner ++ "/" ++ name, target, version, token, eventPath] ∧
        (∀ c ∈ (execute w s [repository, target, version, token, eventPath]).calls,
          c.owner = owner ∧ c.repo = name) ∧
        (execute w s [repository, target, version, token, eventPath]).effects.head? =
          some (.fileOpen eventPath) ∧
        (∀ i n : Nat,
          (execute w s [repository, target, version, token, eventPath]).halted ≠
            some (.panic (.indexOutOfRange i n))) ∧
        (∀ (payload : String) (event : Option PullRequestEvent),
          w.Open eventPath = none →
          w.ReadAll eventPath = (payload, none) →
          w.ParseWebHook "pull_request" payload = (.pullRequestEvent event, none) →
          (s = "none" →
            execute w s [repository, target, version, token, eventPath] =
              .ret [.fileOpen eventPath, .fileRead eventPath, .fileClose eventPath] ()) ∧
          (s = "tag" →
            (execute w s [repository, target, version, token, eventPath]).calls =
              [Call.createRef ⟨token⟩ owner name
                { Ref := some ("refs/tags/" ++ version),
                  Object := some { SHA := some target } }]) ∧
          (s = "release" → ∀ (ev : PullRequestEvent) (pr : PullRequest),
            event = some ev → ev.PullRequest = some pr →
            (execute w s [repository, target, version, token, eventPath]).calls =
              [Call.createRelease ⟨token⟩ owner name
                { Name := some version, TagName := some version,
                  TargetCommitish := some target, Body := pr.Body,
                  Draft := some false, Prerelease := some false }]))) ∧
    ((∃ n : Nat, (execute w s [repository, target, version, token, eventPath]).halted =
        some (.panic (.indexOutOfRange 1 n))) ↔ '/' ∉ repository.data) := by
  refine ⟨?_, ?_, ?_, ?_⟩
  · constructor
    · intro h
      by_contra hno
      rw [split_no_sep repository '/' hno] at h
      simp [index, Result.succeeded] at h
    · intro h
      obtain ⟨p0, p1, more, hsp, -, -, -⟩ := split_two repository '/' h
      simp [hsp, index, Result.succeeded]
  · intro hno
    refine ⟨split_no_sep repository '/' hno, ?_⟩
    rw [execute_five, split_no_sep repository '/' hno]
  · intro h2
    have hmem : '/' ∈ repository.data := List.count_pos_iff.mp (by omega)
    obtain ⟨p0, p1, more, hsp, h0, h1, hlen⟩ := split_two repository '/' hmem
    refine ⟨p0, p1, more, hsp, ?_, ?_, ?_, ?_, ?_, ?_, ?_⟩
    · intro hm
      rw [hm] at hlen
      simp at hlen
      omega
    · simp [hsp, index]
    · rw [execute_five, execute_five, hsp, split_owner_name p0 p1 h0 h1]
    · exact calls_addressed w s repository target version token eventPath p0 p1 more hsp
    · rw [execute_five]
      simp only [hsp]
      repeat' split
      all_goals simp_all [Result.effects]
    · intro i n
      rw [execute_five]
      simp only [hsp]
      repeat' split
      all_goals simp_all [Result.halted]
    · intro payload event hopen hread hparse
      refine ⟨?_, ?_, ?_⟩
      · intro hs
        rw [execute_five]
        simp [hsp, hopen, hread, hparse, hs]
      · intro hs
        rw [execute_five]
        simp only [hsp, hopen, hread, hparse, hs]
        cases w.CreateRef ⟨token⟩ p0 p1
          { Ref := some ("refs/tags/" ++ version), Object := some { SHA := some target } } <;>
          simp [Result.calls, Result.effects]
      · intro hs ev pr hev hpr
        rw [execute_five]
        simp only [hsp, hopen, hread, hparse, hs, hev, hpr]
        cases w.CreateRelease ⟨token⟩ p0 p1
          { Name := some version, TagName := some version, TargetCommitish := some target,
            Body := pr.Body, Draft := some false, Prerelease := some false } <;>
          simp [Result.calls, Result.effects]
  · constructor
    · rintro ⟨n, hn⟩ hmem
      obtain ⟨p0, p1, more, hsp, -, -, -⟩ := split_two repository '/' hmem
      revert hn
      rw [execute_five]
      simp only [hsp]
      repeat' split
      all_goals simp_all [Result.halted]
    · intro hno
      refine ⟨1, ?_⟩
      rw [execute_five, split_no_sep repository '/' hno]
      rfl

/-- C10 at two examples: the repository `foo` under strategy `none` stops on the index before
any effect, and the repository `a/b/c` under strategy `tag` gets past the index, opens the
event file first and issues its call to the owner `a` and the name `b`. -/
theorem C10_repository_segments_witness :
    execute acmeWorld "none"
        ["foo", "abc123", "v2.0.0", "tok_xyz", "/github/workflow/event.json"] =
      .halt [] (.panic (.indexOutOfRange 1 1)) ∧
    (execute acmeWorld "tag"
        ["a/b/c", "abc123", "v2.0.0", "tok_xyz", "/github/workflow/event.json"]).effects.head? =
      some (.fileOpen "/github/workflow/event.json") ∧
    (execute acmeWorld "tag"
        ["a/b/c", "abc123", "v2.0.0", "tok_xyz", "/github/workflow/event.json"]).calls =
      [Call.createRef ⟨"tok_xyz"⟩ "a" "b"
        { Ref := some "refs/tags/v2.0.0", Object := some { SHA := some "abc123" } }] := by
  refine ⟨((C10_repository_segments acmeWorld "none" "foo" "abc123" "v2.0.0" "tok_xyz"
      "/github/workflow/event.json").2.1 (by decide)).2, ?_⟩
  obtain ⟨owner, name, more, hsp, -, -, -, -, hhead, -, hrun⟩ :=
    (C10_repository_segments acmeWorld "tag" "a/b/c" "abc123" "v2.0.0" "tok_xyz"
      "/github/workflow/event.json").2.2.1 (by decide)
  have hsplit : strings.Split "a/b/c" '/' = ["a", "b", "c"] := by decide
  rw [hsplit] at hsp
  simp only [List.cons.injEq] at hsp
  obtain ⟨rfl, rfl, -⟩ := hsp
  exact ⟨hhead, (hrun "(a pull_request event with body Fixes #4)"
    (some { PullRequest := some { Body := some "Fixes #4" } }) rfl rfl rfl).2.1 rfl⟩

end Release
